import Mathlib

/-!
Polymorphic "set item by key" wrapper (`wrapper.go`).

A shallow embedding of the Go program

    type value interface{}
    type dict map[string]value
    type list []value
    func (recv *dict) SetItem(k value, v value) bool
    func (recv *list) SetItem(k value, v value) bool
    func SetItemWrapper(d value, k value, v value) bool

Both `SetItem` methods have pointer receivers and mutate the variable the
pointer refers to, so the embedding passes an explicit store (`Heap`) that
holds the `dict` and `list` variables a pointer can refer to.  A call yields
a pair: how the call ended (`Except Panic Bool`: a returned boolean or a Go
run-time panic) and the store at that moment.

Modelling conventions:
* Go `int` is embedded as `Int`; the code only compares it with `len`, no
  arithmetic is performed on it.
* A slice is embedded as the `List` of its elements (a nil slice and an empty
  slice both have length 0 and are not told apart by the code).
* A map is a finite map from `String`; the nil map is `none`.
* Sharing is not modelled: in Go a map is a reference and a slice refers to
  a backing array, so after `d2 := d1` or `l2 := l1` a write through one
  variable is seen through the other, whereas the store below keeps an
  independent map and sequence at every address.  The frame results
  therefore speak about the container the receiver refers to only; nothing
  is claimed about what a successful set leaves in other variables.
-/

namespace Wrapper

/-- Addresses of variables in the store. -/
abbrev Addr := Nat

/-- Go `type value interface{}`: a dynamically typed value.  The code tells
apart exactly four dynamic types (`string`, `int`, `*dict`, `*list`); every
other dynamic type (bool, float64, int64, a `dict` or `list` held by value,
...) is `other`, and the nil interface is `nil`.  A pointer is `none` when it
is the nil pointer and `some a` when it refers to the variable at `a`. -/
inductive value where
  | nil : value
  | str (s : String) : value
  | int (i : Int) : value
  | other (tag : Nat) : value
  | dictPtr (p : Option Addr) : value
  | listPtr (p : Option Addr) : value
  deriving DecidableEq, Repr

/-- Go `type dict map[string]value`: `none` is the nil map, `some m` an
initialised map with the finite set of entries `m`. -/
abbrev dict := Option (Finmap (fun _ : String => value))

/-- Go `type list []value`. -/
abbrev list := List value

/-- The run-time panics the three functions can raise. -/
inductive Panic where
  | nilDereference : Panic
  | assignToNilMap : Panic
  | indexOutOfRange : Panic
  deriving DecidableEq, Repr

/-- The store: the `dict` variable and the `list` variable at every address
(Go pointers are typed, so a `*dict` and a `*list` never alias).  Each
address holds its own map and its own sequence; maps or backing arrays shared
between two variables are outside this store. -/
structure Heap where
  dicts : Addr → dict
  lists : Addr → list

/-- Go's index expression `v, ok := m[key]` on a `dict`: reading a nil map
behaves like reading an empty one. -/
def dict.get (m : dict) (key : String) : Option value :=
  match m with
  | none => none
  | some es => es.lookup key

/-- The key set of a `dict` (empty for the nil map). -/
def dict.keys (m : dict) : Finset String :=
  match m with
  | none => ∅
  | some es => es.keys

/-- Go `func (recv *dict) SetItem(k value, v value) bool`.

    key, ok := k.(string)
    if ok { (*recv)[key] = v; return true }
    return false

The assignment dereferences `recv` (panic when it is nil) and then assigns
into the map (panic when the map is nil). -/
def dict.SetItem (recv : Option Addr) (k v : value) (h : Heap) :
    Except Panic Bool × Heap :=
  match k with
  | .str key =>
    match recv with
    | none => (.error .nilDereference, h)
    | some a =>
      match h.dicts a with
      | none => (.error .assignToNilMap, h)
      | some es =>
        (.ok true, { h with dicts := Function.update h.dicts a (some (es.insert key v)) })
  | _ => (.ok false, h)

/-- Go `func (recv *list) SetItem(k value, v value) bool`.

    i, ok := k.(int)
    if !ok || len(*recv) <= i { return false }
    (*recv)[i] = v
    return true

`||` short-circuits, so `recv` is only dereferenced when `k` is an `int`.
The guard tests the upper bound only; the indexed assignment panics when
`i` is negative. -/
def list.SetItem (recv : Option Addr) (k v : value) (h : Heap) :
    Except Panic Bool × Heap :=
  match k with
  | .int i =>
    match recv with
    | none => (.error .nilDereference, h)
    | some a =>
      if ((h.lists a).length : Int) ≤ i then (.ok false, h)
      else if i < 0 then (.error .indexOutOfRange, h)
      else (.ok true, { h with lists := Function.update h.lists a ((h.lists a).set i.toNat v) })
  | _ => (.ok false, h)

/-- Go `func SetItemWrapper(d value, k value, v value) bool`: a type switch
on the dynamic type of `d`. -/
def SetItemWrapper (d k v : value) (h : Heap) : Except Panic Bool × Heap :=
  match d with
  | .dictPtr t => dict.SetItem t k v h
  | .listPtr t => list.SetItem t k v h
  | _ => (.ok false, h)

/-- The store of `main` before its first call: `d := dict{}` at address 0
of the dict variables and `l := list{"1", "2"}` at address 0 of the list
variables; every other variable holds the zero value of its type. -/
def mainHeap : Heap where
  dicts := fun a => if a = 0 then some ∅ else none
  lists := fun a => if a = 0 then [.str "1", .str "2"] else []

/-- A store in which the mapping at address 0 already has an entry:
`d := dict{"baz": 7}` at address 0 of the dict variables; every other
variable holds the zero value of its type. -/
def oneEntryHeap : Heap where
  dicts := fun a => if a = 0 then some (Finmap.singleton "baz" (.int 7)) else none
  lists := fun _ => []

/-- A finite series of set operations issued through `SetItemWrapper`, each
given as (target, key, value) and run in order on the store.  The store a
call leaves behind is passed to the next call however the call ended (a
panic leaves the store as it was when it was raised); the result is the
store after the last call. -/
def runSeries : List (value × value × value) → Heap → Heap
  | [], h => h
  | (d, k, v) :: ops, h => runSeries ops (SetItemWrapper d k v h).2

/-- Go `func main()`: the two demonstration calls, run one after the other
on the store of `main`.  The result lists what the four `Printf` calls
print: the outcome of the first call, `d` after it, the outcome of the
second call, `l` after it. -/
def main : Except Panic Bool × dict × Except Panic Bool × list :=
  let r1 := SetItemWrapper (.dictPtr (some 0)) (.str "foo") (.str "bar") mainHeap
  let r2 := SetItemWrapper (.listPtr (some 0)) (.int 1) (.str "bar") r1.2
  (r1.1, r1.2.dicts 0, r2.1, r2.2.lists 0)

/-! ## Auxiliary lemmas -/

theorem dict_SetItem_lists (recv : Option Addr) (k v : value) (h : Heap) :
    (dict.SetItem recv k v h).2.lists = h.lists := by
  unfold dict.SetItem
  split
  · split
    · rfl
    · split <;> rfl
  · rfl

theorem list_SetItem_length (recv : Option Addr) (k v : value) (h : Heap) (a : Addr) :
    ((list.SetItem recv k v h).2.lists a).length = (h.lists a).length := by
  unfold list.SetItem
  split
  · split
    · rfl
    · rename_i i _ b
      by_cases h1 : ((h.lists b).length : Int) ≤ i
      · simp [h1]
      · by_cases h2 : i < 0
        · simp [h1, h2]
        · by_cases hab : a = b
          · subst hab
            simp [h1, h2]
          · simp [h1, h2, Function.update_noteq hab]
  · rfl

theorem SetItemWrapper_length (d k v : value) (h : Heap) (a : Addr) :
    ((SetItemWrapper d k v h).2.lists a).length = (h.lists a).length := by
  unfold SetItemWrapper
  split
  · rw [dict_SetItem_lists]
  · exact list_SetItem_length _ k v h a
  · rfl

theorem runSeries_length (ops : List (value × value × value)) (h : Heap) (a : Addr) :
    ((runSeries ops h).lists a).length = (h.lists a).length := by
  induction ops generalizing h with
  | nil => rfl
  | cons op ops ih =>
    obtain ⟨d, k, v⟩ := op
    unfold runSeries
    rw [ih, SetItemWrapper_length]

/-! ## The claims -/

/-- C1: on a mapping container (a `*dict` that refers to an initialised
map), `SetItem` with a string key returns true, and reading that key from the
mapping afterwards yields the value just stored, whether or not the key was
present before. -/
theorem dict_SetItem_string_key (h : Heap) (a : Addr) (es : Finmap (fun _ : String => value))
    (key : String) (v : value) (hm : h.dicts a = some es) :
    (dict.SetItem (some a) (.str key) v h).1 = .ok true ∧
      dict.get ((dict.SetItem (some a) (.str key) v h).2.dicts a) key = some v := by
  simp [dict.SetItem, hm, dict.get, Finmap.lookup_insert]

theorem dict_SetItem_string_key_witness :
    mainHeap.dicts 0 = some ∅ ∧
      ((dict.SetItem (some 0) (.str "foo") (.str "bar") mainHeap).1 = .ok true ∧
        dict.get ((dict.SetItem (some 0) (.str "foo") (.str "bar") mainHeap).2.dicts 0) "foo"
          = some (.str "bar")) :=
  ⟨rfl, dict_SetItem_string_key mainHeap 0 ∅ "foo" (.str "bar") rfl⟩

/-- C2: with a key that is not a string, `(*dict).SetItem` returns false and
the store is returned as it was, so the mapping has the same key set and the
same value at every key as before. -/
theorem dict_SetItem_non_string_key (h : Heap) (recv : Option Addr) (k v : value)
    (hk : ∀ s, k ≠ .str s) :
    (dict.SetItem recv k v h).1 = .ok false ∧ (dict.SetItem recv k v h).2 = h ∧
      (∀ a, dict.keys ((dict.SetItem recv k v h).2.dicts a) = dict.keys (h.dicts a)) ∧
      (∀ a key, dict.get ((dict.SetItem recv k v h).2.dicts a) key = dict.get (h.dicts a) key) := by
  have hres : dict.SetItem recv k v h = (.ok false, h) := by
    unfold dict.SetItem
    split
    · rename_i key
      exact absurd rfl (hk key)
    · rfl
  rw [hres]
  exact ⟨rfl, rfl, fun _ => rfl, fun _ _ => rfl⟩

theorem dict_SetItem_non_string_key_witness :
    (∀ s, value.int 42 ≠ .str s) ∧
      ((dict.SetItem (some 0) (.int 42) (.str "bar") mainHeap).1 = .ok false ∧
        (dict.SetItem (some 0) (.int 42) (.str "bar") mainHeap).2 = mainHeap ∧
        (∀ a, dict.keys ((dict.SetItem (some 0) (.int 42) (.str "bar") mainHeap).2.dicts a)
          = dict.keys (mainHeap.dicts a)) ∧
        (∀ a key, dict.get ((dict.SetItem (some 0) (.int 42) (.str "bar") mainHeap).2.dicts a) key
          = dict.get (mainHeap.dicts a) key)) :=
  ⟨fun _ hc => value.noConfusion hc,
    dict_SetItem_non_string_key mainHeap (some 0) (.int 42) (.str "bar")
      (fun _ hc => value.noConfusion hc)⟩

/-- C3: on a sequence container, `SetItem` with an integer key `i` such
that `0 <= i < len` returns true; afterwards the element at position `i` is
the value just stored and the length is what it was. -/
theorem list_SetItem_in_range (h : Heap) (a : Addr) (i : Int) (v : value)
    (h0 : 0 ≤ i) (hlen : i < ((h.lists a).length : Int)) :
    (list.SetItem (some a) (.int i) v h).1 = .ok true ∧
      ((list.SetItem (some a) (.int i) v h).2.lists a)[i.toNat]? = some v ∧
      ((list.SetItem (some a) (.int i) v h).2.lists a).length = (h.lists a).length := by
  have h1 : ¬ ((h.lists a).length : Int) ≤ i := by omega
  have h2 : ¬ i < 0 := by omega
  have h3 : i.toNat < (h.lists a).length := by omega
  simp [list.SetItem, h1, h2, h3]

theorem list_SetItem_in_range_witness :
    (0 : Int) ≤ 1 ∧ (1 : Int) < ((mainHeap.lists 0).length : Int) ∧
      ((list.SetItem (some 0) (.int 1) (.str "bar") mainHeap).1 = .ok true ∧
        ((list.SetItem (some 0) (.int 1) (.str "bar") mainHeap).2.lists 0)[(1 : Int).toNat]?
          = some (.str "bar") ∧
        ((list.SetItem (some 0) (.int 1) (.str "bar") mainHeap).2.lists 0).length
          = (mainHeap.lists 0).length) :=
  ⟨by decide, by decide,
    list_SetItem_in_range mainHeap 0 1 (.str "bar") (by decide) (by decide)⟩

/-- C4: on a sequence container, `SetItem` with a key that is not an integer,
or with an integer key `i >= len` (the case `i = len` and the empty sequence
included), returns false and returns the store as it was: the sequence keeps
its length and every element, and is never extended. -/
theorem list_SetItem_rejects (h : Heap) (a : Addr) (k v : value)
    (hk : (∀ i, k ≠ .int i) ∨ (∃ i, k = .int i ∧ ((h.lists a).length : Int) ≤ i)) :
    (list.SetItem (some a) k v h).1 = .ok false ∧ (list.SetItem (some a) k v h).2 = h ∧
      (list.SetItem (some a) k v h).2.lists a = h.lists a := by
  have hres : list.SetItem (some a) k v h = (.ok false, h) := by
    rcases hk with hk | ⟨i, rfl, hi⟩
    · unfold list.SetItem
      split
      · rename_i i
        exact absurd rfl (hk i)
      · rfl
    · simp [list.SetItem, hi]
  rw [hres]
  exact ⟨rfl, rfl, rfl⟩

theorem list_SetItem_rejects_witness :
    ((∀ i, value.int 5 ≠ .int i) ∨
        (∃ i, value.int 5 = .int i ∧ ((mainHeap.lists 0).length : Int) ≤ i)) ∧
      ((list.SetItem (some 0) (.int 5) (.str "bar") mainHeap).1 = .ok false ∧
        (list.SetItem (some 0) (.int 5) (.str "bar") mainHeap).2 = mainHeap ∧
        (list.SetItem (some 0) (.int 5) (.str "bar") mainHeap).2.lists 0 = mainHeap.lists 0) :=
  ⟨Or.inr ⟨5, rfl, by decide⟩,
    list_SetItem_rejects mainHeap 0 (.int 5) (.str "bar") (Or.inr ⟨5, rfl, by decide⟩)⟩

/-- C5: evaluation of `(*list).SetItem` at negative integer keys.  The guard
`!ok || len(*recv) <= i` lets every negative `i` through, and the indexed
assignment that follows panics with "index out of range": the call does not
return false.  Shown for every negative key on every sequence, and at the
sequence `["1", "2"]` of `main` with key `-1`. -/
theorem list_SetItem_negative_index_panics :
    (∀ (h : Heap) (a : Addr) (n : Nat) (v : value),
        list.SetItem (some a) (.int (Int.negSucc n)) v h = (.error .indexOutOfRange, h)) ∧
      list.SetItem (some 0) (.int (-1)) (.str "bar") mainHeap
        = (.error .indexOutOfRange, mainHeap) ∧
      (list.SetItem (some 0) (.int (-1)) (.str "bar") mainHeap).1 ≠ .ok false := by
  have hgen : ∀ (h : Heap) (a : Addr) (n : Nat) (v : value),
      list.SetItem (some a) (.int (Int.negSucc n)) v h = (.error .indexOutOfRange, h) := by
    intro h a n v
    have h1 : ¬ ((h.lists a).length : Int) ≤ Int.negSucc n := by
      have := Int.negSucc_lt_zero n
      omega
    have h2 : Int.negSucc n < 0 := Int.negSucc_lt_zero n
    simp [list.SetItem, h1, h2]
  refine ⟨hgen, hgen mainHeap 0 0 (.str "bar"), ?_⟩
  have e : list.SetItem (some 0) (.int (-1)) (.str "bar") mainHeap
      = (.error .indexOutOfRange, mainHeap) := hgen mainHeap 0 0 (.str "bar")
  rw [e]
  intro hc
  cases hc

/-- C6: on a target of dynamic type `*dict` or `*list` the wrapper is a pure
pass-through: it ends the same way (same boolean, or same panic) and leaves
the same store as the direct call of that container's own `SetItem`. -/
theorem SetItemWrapper_pass_through (p : Option Addr) (k v : value) (h : Heap) :
    SetItemWrapper (.dictPtr p) k v h = dict.SetItem p k v h ∧
      SetItemWrapper (.listPtr p) k v h = list.SetItem p k v h :=
  ⟨rfl, rfl⟩

/-- C7: on a target whose dynamic type is neither `*dict` nor `*list` (a
number, a string, the nil interface, ...) the wrapper returns false without
a panic and returns the store as it was. -/
theorem SetItemWrapper_unrecognized (d k v : value) (h : Heap)
    (hd : ∀ p, d ≠ .dictPtr p) (hl : ∀ p, d ≠ .listPtr p) :
    SetItemWrapper d k v h = (.ok false, h) := by
  unfold SetItemWrapper
  split
  · rename_i t
    exact absurd rfl (hd t)
  · rename_i t
    exact absurd rfl (hl t)
  · rfl

theorem SetItemWrapper_unrecognized_witness :
    (∀ p, value.int 42 ≠ .dictPtr p) ∧ (∀ p, value.int 42 ≠ .listPtr p) ∧
      SetItemWrapper (.int 42) (.str "foo") (.str "bar") mainHeap = (.ok false, mainHeap) :=
  ⟨fun _ hc => value.noConfusion hc, fun _ hc => value.noConfusion hc,
    SetItemWrapper_unrecognized (.int 42) (.str "foo") (.str "bar") mainHeap
      (fun _ hc => value.noConfusion hc) (fun _ hc => value.noConfusion hc)⟩

/-- C8: evaluation of `SetItemWrapper` on the sequence `["1", "2"]` of `main`
with the key `-1`: the call ends in the panic "index out of range" and
returns no boolean, so the panic branch is reachable. -/
theorem SetItemWrapper_negative_index_panics :
    (SetItemWrapper (.listPtr (some 0)) (.int (-1)) (.str "bar") mainHeap).1
        = .error .indexOutOfRange ∧
      ¬ ∃ b : Bool,
        (SetItemWrapper (.listPtr (some 0)) (.int (-1)) (.str "bar") mainHeap).1 = .ok b := by
  have e : (SetItemWrapper (.listPtr (some 0)) (.int (-1)) (.str "bar") mainHeap).1
      = .error .indexOutOfRange := rfl
  refine ⟨e, ?_⟩
  rintro ⟨b, hb⟩
  rw [e] at hb
  cases hb

/-- C9: evaluation of `SetItemWrapper` on the empty sequence with the key
`-2`: the target is a sequence container and the key is an integer outside
`0 <= k < length`, yet the call does not return false (it panics), so
"returns false if and only if ..." fails from right to left there. -/
theorem SetItemWrapper_negative_index_not_false :
    ({ dicts := fun _ => none, lists := fun _ => [] } : Heap).lists 7 = [] ∧
      ¬ ((0 : Int) ≤ -2 ∧
        (-2 : Int) < ((({ dicts := fun _ => none, lists := fun _ => [] } : Heap).lists 7).length : Int)) ∧
      (SetItemWrapper (.listPtr (some 7)) (.int (-2)) .nil
          { dicts := fun _ => none, lists := fun _ => [] }).1 ≠ .ok false ∧
      (SetItemWrapper (.listPtr (some 7)) (.int (-2)) .nil
          { dicts := fun _ => none, lists := fun _ => [] }).1 = .error .indexOutOfRange := by
  refine ⟨rfl, by decide, ?_, rfl⟩
  have e : (SetItemWrapper (.listPtr (some 7)) (.int (-2)) .nil
      { dicts := fun _ => none, lists := fun _ => [] }).1 = .error .indexOutOfRange := rfl
  rw [e]
  intro hc
  cases hc

/-- C10: `(*list).SetItem` never changes the length of a sequence, whatever
the receiver, the key (of any type, any integer) and the value, and however
the call ends; hence the length of every sequence in the store is the same
after any finite series of set operations issued through `SetItemWrapper`. -/
theorem list_length_invariant :
    (∀ (recv : Option Addr) (k v : value) (h : Heap) (a : Addr),
        ((list.SetItem recv k v h).2.lists a).length = (h.lists a).length) ∧
      (∀ (d k v : value) (h : Heap) (a : Addr),
        ((SetItemWrapper d k v h).2.lists a).length = (h.lists a).length) ∧
      (∀ (ops : List (value × value × value)) (h : Heap) (a : Addr),
        ((runSeries ops h).lists a).length = (h.lists a).length) :=
  ⟨list_SetItem_length, SetItemWrapper_length, runSeries_length⟩

/-! ## Effect of a call on the store -/

/-- The store after `(*dict).SetItem` with a string key on a non-nil
receiver: the map at the receiver's address, when initialised, gains the
entry; a nil map stays nil. -/
theorem dict_SetItem_store_str (a : Addr) (key : String) (v : value) (h : Heap) :
    (dict.SetItem (some a) (.str key) v h).2 =
      { dicts := Function.update h.dicts a ((h.dicts a).map (fun es => es.insert key v)),
        lists := h.lists } := by
  have hupd : Function.update h.dicts a (h.dicts a) = h.dicts :=
    Function.update_eq_self a h.dicts
  cases hm : h.dicts a with
  | none =>
    rw [hm] at hupd
    simp [dict.SetItem, hm, hupd]
  | some es => simp [dict.SetItem, hm]

theorem dict_SetItem_store_of_not_str (recv : Option Addr) (k v : value) (h : Heap)
    (hk : ∀ s, k ≠ .str s) : (dict.SetItem recv k v h).2 = h := by
  unfold dict.SetItem
  split
  · rename_i key
    exact absurd rfl (hk key)
  · rfl

theorem dict_SetItem_store_nil (k v : value) (h : Heap) :
    (dict.SetItem none k v h).2 = h := by
  unfold dict.SetItem
  split <;> rfl

theorem list_SetItem_dicts (recv : Option Addr) (k v : value) (h : Heap) :
    (list.SetItem recv k v h).2.dicts = h.dicts := by
  unfold list.SetItem
  split
  · split
    · rfl
    · split
      · rfl
      · split <;> rfl
  · rfl

theorem dict_keys_map_insert (m : dict) (key : String) (v : value) :
    dict.keys (m.map (fun es => es.insert key v)) =
      match m with
      | none => ∅
      | some _ => insert key (dict.keys m) := by
  cases m with
  | none => rfl
  | some es =>
    ext x
    simp [dict.keys, Finmap.mem_keys, Finmap.mem_insert]

theorem dict_SetItem_keys_subset (recv : Option Addr) (k v : value) (h : Heap) (a : Addr) :
    dict.keys (h.dicts a) ⊆ dict.keys ((dict.SetItem recv k v h).2.dicts a) := by
  by_cases hk : ∃ key, k = .str key
  · obtain ⟨key, rfl⟩ := hk
    cases recv with
    | none => rw [dict_SetItem_store_nil]
    | some b =>
      rw [dict_SetItem_store_str]
      by_cases hab : a = b
      · subst hab
        simp only [Function.update_same]
        rw [dict_keys_map_insert]
        cases hm : h.dicts a with
        | none => simp [dict.keys]
        | some es => exact Finset.subset_insert _ _
      · simp only [Function.update_noteq hab]
        exact Finset.Subset.refl _
  · rw [dict_SetItem_store_of_not_str recv k v h (fun s hs => hk ⟨s, hs⟩)]

theorem SetItemWrapper_keys_subset (d k v : value) (h : Heap) (a : Addr) :
    dict.keys (h.dicts a) ⊆ dict.keys ((SetItemWrapper d k v h).2.dicts a) := by
  unfold SetItemWrapper
  split
  · exact dict_SetItem_keys_subset _ k v h a
  · rw [list_SetItem_dicts]
  · exact Finset.Subset.refl _

theorem runSeries_keys_subset (ops : List (value × value × value)) (h : Heap) (a : Addr) :
    dict.keys (h.dicts a) ⊆ dict.keys ((runSeries ops h).dicts a) := by
  induction ops generalizing h with
  | nil => exact Finset.Subset.refl _
  | cons op ops ih =>
    obtain ⟨d, k, v⟩ := op
    unfold runSeries
    exact Finset.Subset.trans (SetItemWrapper_keys_subset d k v h a) (ih _)

/-- C11: every key present in a mapping before `(*dict).SetItem` is present
after it, whatever the receiver, the key and the value and however the call
ends: the key set may grow and never shrinks.  The same holds for one call
through `SetItemWrapper` and for any finite series of set operations. -/
theorem dict_keys_never_shrink :
    (∀ (recv : Option Addr) (k v : value) (h : Heap) (a : Addr),
        dict.keys (h.dicts a) ⊆ dict.keys ((dict.SetItem recv k v h).2.dicts a)) ∧
      (∀ (d k v : value) (h : Heap) (a : Addr),
        dict.keys (h.dicts a) ⊆ dict.keys ((SetItemWrapper d k v h).2.dicts a)) ∧
      (∀ (ops : List (value × value × value)) (h : Heap) (a : Addr),
        dict.keys (h.dicts a) ⊆ dict.keys ((runSeries ops h).dicts a)) :=
  ⟨dict_SetItem_keys_subset, SetItemWrapper_keys_subset, runSeries_keys_subset⟩

/-- C12: a successful `(*dict).SetItem` (string key, initialised map) changes
only the entry for its key: the call returns true, the key set afterwards is
exactly the old key set with the key added, and every other key of the
mapping reads as before (an overwrite when the key was present, an insert
when it was not). -/
theorem dict_SetItem_frame (h : Heap) (a : Addr) (es : Finmap (fun _ : String => value))
    (key : String) (v : value) (hm : h.dicts a = some es) :
    (dict.SetItem (some a) (.str key) v h).1 = .ok true ∧
      dict.keys ((dict.SetItem (some a) (.str key) v h).2.dicts a)
        = insert key (dict.keys (h.dicts a)) ∧
      (∀ key2, key2 ≠ key →
        dict.get ((dict.SetItem (some a) (.str key) v h).2.dicts a) key2
          = dict.get (h.dicts a) key2) := by
  refine ⟨by simp [dict.SetItem, hm], ?_, ?_⟩
  · rw [dict_SetItem_store_str]
    simp only [Function.update_same]
    rw [dict_keys_map_insert, hm]
  · intro key2 hne
    rw [dict_SetItem_store_str]
    simp only [Function.update_same]
    rw [hm]
    simp [dict.get, Finmap.lookup_insert_of_ne _ hne]

theorem dict_SetItem_frame_witness :
    oneEntryHeap.dicts 0 = some (Finmap.singleton "baz" (.int 7)) ∧
      ((dict.SetItem (some 0) (.str "foo") (.str "bar") oneEntryHeap).1 = .ok true ∧
        dict.keys ((dict.SetItem (some 0) (.str "foo") (.str "bar") oneEntryHeap).2.dicts 0)
          = insert "foo" (dict.keys (oneEntryHeap.dicts 0)) ∧
        (∀ key2, key2 ≠ "foo" →
          dict.get ((dict.SetItem (some 0) (.str "foo") (.str "bar") oneEntryHeap).2.dicts 0)
              key2
            = dict.get (oneEntryHeap.dicts 0) key2)) ∧
      dict.get ((dict.SetItem (some 0) (.str "foo") (.str "bar") oneEntryHeap).2.dicts 0) "baz"
        = some (.int 7) :=
  ⟨rfl,
    dict_SetItem_frame oneEntryHeap 0 (Finmap.singleton "baz" (.int 7)) "foo" (.str "bar") rfl,
    rfl⟩

/-- The store after `(*list).SetItem` with an integer key on a non-nil
receiver: untouched for a negative key (the call panics), and otherwise the
sequence at the receiver's address with position `i` set (which is the same
sequence when `i` is beyond its end). -/
theorem list_SetItem_store_int (a : Addr) (i : Int) (v : value) (h : Heap) :
    (list.SetItem (some a) (.int i) v h).2 =
      if i < 0 then h
      else { dicts := h.dicts,
             lists := Function.update h.lists a ((h.lists a).set i.toNat v) } := by
  by_cases h1 : ((h.lists a).length : Int) ≤ i
  · have h2 : ¬ i < 0 := by omega
    have h3 : (h.lists a).length ≤ i.toNat := by omega
    have hupd : Function.update h.lists a (h.lists a) = h.lists :=
      Function.update_eq_self a h.lists
    simp [list.SetItem, h1, h2, List.set_eq_of_length_le h3, hupd]
  · by_cases h2 : i < 0
    · simp [list.SetItem, h1, h2]
    · simp [list.SetItem, h1, h2]

theorem list_SetItem_store_nil (k v : value) (h : Heap) :
    (list.SetItem none k v h).2 = h := by
  unfold list.SetItem
  split <;> rfl

/-- C13: a successful `(*list).SetItem` (integer key `i` with
`0 <= i < len`) changes only position `i`: the call returns true and every
other position of the sequence holds the element it held before. -/
theorem list_SetItem_frame (h : Heap) (a : Addr) (i : Int) (v : value)
    (h0 : 0 ≤ i) (hlen : i < ((h.lists a).length : Int)) :
    (list.SetItem (some a) (.int i) v h).1 = .ok true ∧
      (∀ j : Nat, (j : Int) ≠ i →
        ((list.SetItem (some a) (.int i) v h).2.lists a)[j]? = (h.lists a)[j]?) := by
  have h1 : ¬ ((h.lists a).length : Int) ≤ i := by omega
  have h2 : ¬ i < 0 := by omega
  refine ⟨by simp [list.SetItem, h1, h2], ?_⟩
  intro j hj
  have hne : i.toNat ≠ j := by omega
  rw [list_SetItem_store_int]
  simp only [h2, if_false, Function.update_same]
  exact List.getElem?_set_ne hne

theorem list_SetItem_frame_witness :
    (0 : Int) ≤ 1 ∧ (1 : Int) < ((mainHeap.lists 0).length : Int) ∧
      ((list.SetItem (some 0) (.int 1) (.str "bar") mainHeap).1 = .ok true ∧
        (∀ j : Nat, (j : Int) ≠ 1 →
          ((list.SetItem (some 0) (.int 1) (.str "bar") mainHeap).2.lists 0)[j]?
            = (mainHeap.lists 0)[j]?)) ∧
      ((list.SetItem (some 0) (.int 1) (.str "bar") mainHeap).2.lists 0)[0]?
        = some (.str "1") :=
  ⟨by decide, by decide,
    list_SetItem_frame mainHeap 0 1 (.str "bar") (by decide) (by decide),
    rfl⟩

/-- C14: the two demonstration calls of `main` both succeed through the
wrapper.  On the empty mapping, `SetItemWrapper(&d, "foo", "bar")` returns
true and `d` becomes exactly `{"foo": "bar"}`; on the sequence `["1", "2"]`,
`SetItemWrapper(&l, 1, "bar")` returns true and `l` becomes exactly
`["1", "bar"]`, both when run from the initial store and when run, as in
`main`, after the first call. -/
theorem main_calls_succeed :
    mainHeap.dicts 0 = some ∅ ∧
      mainHeap.lists 0 = [.str "1", .str "2"] ∧
      SetItemWrapper (.dictPtr (some 0)) (.str "foo") (.str "bar") mainHeap
        = (.ok true,
            { dicts := Function.update mainHeap.dicts 0
                (some (Finmap.singleton "foo" (.str "bar"))),
              lists := mainHeap.lists }) ∧
      SetItemWrapper (.listPtr (some 0)) (.int 1) (.str "bar") mainHeap
        = (.ok true,
            { dicts := mainHeap.dicts,
              lists := Function.update mainHeap.lists 0 [.str "1", .str "bar"] }) ∧
      main = (.ok true, some (Finmap.singleton "foo" (.str "bar")),
              .ok true, [.str "1", .str "bar"]) :=
  ⟨rfl, rfl, rfl, rfl, rfl⟩

theorem dict_SetItem_twice (recv : Option Addr) (k v : value) (h : Heap) :
    dict.SetItem recv k v (dict.SetItem recv k v h).2 = dict.SetItem recv k v h := by
  by_cases hk : ∃ key, k = .str key
  · obtain ⟨key, rfl⟩ := hk
    cases recv with
    | none => rfl
    | some a =>
      cases hm : h.dicts a with
      | none => simp [dict.SetItem, hm]
      | some es => simp [dict.SetItem, hm, Finmap.insert_insert]
  · rw [dict_SetItem_store_of_not_str recv k v h (fun s hs => hk ⟨s, hs⟩)]

theorem list_SetItem_twice (recv : Option Addr) (k v : value) (h : Heap) :
    list.SetItem recv k v (list.SetItem recv k v h).2 = list.SetItem recv k v h := by
  by_cases hk : ∃ i, k = .int i
  · obtain ⟨i, rfl⟩ := hk
    cases recv with
    | none => rfl
    | some a =>
      by_cases h1 : ((h.lists a).length : Int) ≤ i
      · simp [list.SetItem, h1]
      · by_cases h2 : i < 0
        · simp [list.SetItem, h1, h2]
        · simp [list.SetItem, h1, h2]
  · have hstore : (list.SetItem recv k v h).2 = h := by
      unfold list.SetItem
      split
      · rename_i i
        exact absurd ⟨i, rfl⟩ hk
      · rfl
    rw [hstore]

/-- Two identical calls in a row end the same way and leave the same
store: a second `SetItemWrapper(c, k, v)` right after the first returns the
boolean the first returned, or raises the panic the first raised, and the
store is the one the first call left.  The same holds for the two `SetItem`
methods called directly. -/
theorem SetItemWrapper_twice (d k v : value) (h : Heap) :
    SetItemWrapper d k v (SetItemWrapper d k v h).2 = SetItemWrapper d k v h ∧
      (∀ recv : Option Addr,
        dict.SetItem recv k v (dict.SetItem recv k v h).2 = dict.SetItem recv k v h) ∧
      (∀ recv : Option Addr,
        list.SetItem recv k v (list.SetItem recv k v h).2 = list.SetItem recv k v h) := by
  refine ⟨?_, fun recv => dict_SetItem_twice recv k v h,
    fun recv => list_SetItem_twice recv k v h⟩
  cases d with
  | dictPtr p => exact dict_SetItem_twice p k v h
  | listPtr p => exact list_SetItem_twice p k v h
  | nil => rfl
  | str s => rfl
  | int n => rfl
  | other tag => rfl

/-- C15: evaluation of two `SetItemWrapper` calls in a row on the sequence
`["1", "2"]` of `main` with the key `-1`: the first call ends in the panic
"index out of range", and so does the second when it is run on the store the
first left, so there is no boolean that both calls return. -/
theorem SetItemWrapper_twice_negative_index_panics :
    (SetItemWrapper (.listPtr (some 0)) (.int (-1)) (.str "bar") mainHeap).1
        = .error .indexOutOfRange ∧
      (SetItemWrapper (.listPtr (some 0)) (.int (-1)) (.str "bar")
          (SetItemWrapper (.listPtr (some 0)) (.int (-1)) (.str "bar") mainHeap).2).1
        = .error .indexOutOfRange ∧
      ¬ ∃ b : Bool,
        (SetItemWrapper (.listPtr (some 0)) (.int (-1)) (.str "bar") mainHeap).1 = .ok b ∧
          (SetItemWrapper (.listPtr (some 0)) (.int (-1)) (.str "bar")
            (SetItemWrapper (.listPtr (some 0)) (.int (-1)) (.str "bar") mainHeap).2).1
            = .ok b := by
  have e : (SetItemWrapper (.listPtr (some 0)) (.int (-1)) (.str "bar") mainHeap).1
      = .error .indexOutOfRange := rfl
  refine ⟨e, rfl, ?_⟩
  rintro ⟨b, hb, _⟩
  rw [e] at hb
  cases hb

theorem dict_SetItem_comm (recv : Option Addr) (s1 s2 : String) (v1 v2 : value) (h : Heap)
    (hs : s1 ≠ s2) :
    (dict.SetItem recv (.str s2) v2 (dict.SetItem recv (.str s1) v1 h).2).2
      = (dict.SetItem recv (.str s1) v1 (dict.SetItem recv (.str s2) v2 h).2).2 := by
  cases recv with
  | none => simp only [dict_SetItem_store_nil]
  | some a =>
    simp only [dict_SetItem_store_str, Function.update_same, Function.update_idem]
    cases h.dicts a with
    | none => rfl
    | some es =>
      simp only [Option.map_some']
      rw [Finmap.insert_insert_of_ne es hs]

theorem dict_SetItem_last_wins (recv : Option Addr) (s : String) (v1 v2 : value) (h : Heap) :
    (dict.SetItem recv (.str s) v2 (dict.SetItem recv (.str s) v1 h).2).2
      = (dict.SetItem recv (.str s) v2 h).2 := by
  cases recv with
  | none => simp only [dict_SetItem_store_nil]
  | some a =>
    simp only [dict_SetItem_store_str, Function.update_same, Function.update_idem]
    cases h.dicts a with
    | none => rfl
    | some es =>
      simp only [Option.map_some']
      rw [Finmap.insert_insert]

theorem list_SetItem_comm (recv : Option Addr) (i1 i2 : Int) (v1 v2 : value) (h : Heap)
    (hi : i1 ≠ i2) :
    (list.SetItem recv (.int i2) v2 (list.SetItem recv (.int i1) v1 h).2).2
      = (list.SetItem recv (.int i1) v1 (list.SetItem recv (.int i2) v2 h).2).2 := by
  cases recv with
  | none => simp only [list_SetItem_store_nil]
  | some a =>
    by_cases h1 : i1 < 0
    · by_cases h2 : i2 < 0
      · simp [list_SetItem_store_int, h1, h2]
      · simp [list_SetItem_store_int, h1, h2]
    · by_cases h2 : i2 < 0
      · simp [list_SetItem_store_int, h1, h2]
      · have hne : i1.toNat ≠ i2.toNat := by omega
        simp only [list_SetItem_store_int, h1, h2, if_false, Function.update_same,
          Function.update_idem]
        rw [List.set_comm v1 v2 (h.lists a) hne]

theorem list_SetItem_last_wins (recv : Option Addr) (i : Int) (v1 v2 : value) (h : Heap) :
    (list.SetItem recv (.int i) v2 (list.SetItem recv (.int i) v1 h).2).2
      = (list.SetItem recv (.int i) v2 h).2 := by
  cases recv with
  | none => simp only [list_SetItem_store_nil]
  | some a =>
    by_cases h1 : i < 0
    · simp [list_SetItem_store_int, h1]
    · simp only [list_SetItem_store_int, h1, if_false, Function.update_same,
        Function.update_idem, List.set_set]

/-- C16: sets at distinct keys commute and a later set at the same key wins.
For two distinct string keys on a mapping, and for two distinct integer keys
on a sequence, setting `(k1, v1)` then `(k2, v2)` leaves the same store as
setting `(k2, v2)` then `(k1, v1)`; and setting `(k, v1)` then `(k, v2)`
leaves the same store as setting `(k, v2)` alone.  Keys valid for the
container (in-range indices, an initialised map) are a special case. -/
theorem SetItem_commute_last_wins (h : Heap) (recv : Option Addr) (s1 s2 : String)
    (i1 i2 : Int) (v1 v2 : value) (hs : s1 ≠ s2) (hi : i1 ≠ i2) :
    (dict.SetItem recv (.str s2) v2 (dict.SetItem recv (.str s1) v1 h).2).2
        = (dict.SetItem recv (.str s1) v1 (dict.SetItem recv (.str s2) v2 h).2).2 ∧
      (list.SetItem recv (.int i2) v2 (list.SetItem recv (.int i1) v1 h).2).2
        = (list.SetItem recv (.int i1) v1 (list.SetItem recv (.int i2) v2 h).2).2 ∧
      (dict.SetItem recv (.str s1) v2 (dict.SetItem recv (.str s1) v1 h).2).2
        = (dict.SetItem recv (.str s1) v2 h).2 ∧
      (list.SetItem recv (.int i1) v2 (list.SetItem recv (.int i1) v1 h).2).2
        = (list.SetItem recv (.int i1) v2 h).2 :=
  ⟨dict_SetItem_comm recv s1 s2 v1 v2 h hs, list_SetItem_comm recv i1 i2 v1 v2 h hi,
    dict_SetItem_last_wins recv s1 v1 v2 h, list_SetItem_last_wins recv i1 v1 v2 h⟩

theorem SetItem_commute_last_wins_witness :
    ("foo" : String) ≠ "baz" ∧ (0 : Int) ≠ 1 ∧
      ((dict.SetItem (some 0) (.str "baz") (.int 2)
            (dict.SetItem (some 0) (.str "foo") (.int 1) mainHeap).2).2
          = (dict.SetItem (some 0) (.str "foo") (.int 1)
            (dict.SetItem (some 0) (.str "baz") (.int 2) mainHeap).2).2 ∧
        (list.SetItem (some 0) (.int 1) (.int 2)
            (list.SetItem (some 0) (.int 0) (.int 1) mainHeap).2).2
          = (list.SetItem (some 0) (.int 0) (.int 1)
            (list.SetItem (some 0) (.int 1) (.int 2) mainHeap).2).2 ∧
        (dict.SetItem (some 0) (.str "foo") (.int 2)
            (dict.SetItem (some 0) (.str "foo") (.int 1) mainHeap).2).2
          = (dict.SetItem (some 0) (.str "foo") (.int 2) mainHeap).2 ∧
        (list.SetItem (some 0) (.int 0) (.int 2)
            (list.SetItem (some 0) (.int 0) (.int 1) mainHeap).2).2
          = (list.SetItem (some 0) (.int 0) (.int 2) mainHeap).2) :=
  ⟨by decide, by decide,
    SetItem_commute_last_wins mainHeap (some 0) "foo" "baz" 0 1 (.int 1) (.int 2)
      (by decide) (by decide)⟩

end Wrapper
